import Mathlib

/-!
Shallow embedding of the irctweets ingestion-and-publishing pipeline
(src/bin/irctweets-collect.rs and src/bin/irctweets-publish.rs).

The SQLite store is modelled as explicit lists of rows; SQLite integers
are 64-bit signed, modelled as `Int` together with the wrapping casts
`toI64` / `toU64` for Rust's `u64 as i64` / `i64 as u64`.  External
crates (the `url` parser, `linkify`, `egg_mode`, the IRC client) are
modelled as inputs: a parsed URL candidate is an `Option Url`, the
retweet API is an oracle `Nat → Except String Nat`, and per-statement
SQLite write failures in the publish loop are an oracle `Nat → Bool`.
-/

namespace Irctweets

/-! ### Machine-integer casts

Rust `u64 as i64` and `i64 as u64` are wrapping casts modulo 2^64. -/

def toI64 (x : Nat) : Int :=
  if x % 2 ^ 64 < 2 ^ 63 then ((x % 2 ^ 64 : Nat) : Int)
  else ((x % 2 ^ 64 : Nat) : Int) - 2 ^ 64

def toU64 (y : Int) : Nat := (y % (2 ^ 64 : Int)).toNat

/-! ### Rust `str::parse::<u64>`

Accepts an optional leading plus sign followed by at least one ASCII
digit; overflow past `u64::MAX` is an error. -/

def parseU64 (s : String) : Option Nat :=
  let cs :=
    match s.data with
    | '+' :: rest => rest
    | cs => cs
  if cs.isEmpty then none
  else if cs.all Char.isDigit then
    let v := cs.foldl (fun a c => a * 10 + (c.toNat - 48)) 0
    if v < 2 ^ 64 then some v else none
  else none

/-! ### `get_tweet` (irctweets-collect.rs, lines 228-249)

`url::Url::parse` is an external crate; a successfully parsed URL is
modelled by its scheme, host and path segments, and a parse failure by
`none` at the call site (`get_tweet_cand`). -/

structure Url where
  scheme : String
  host : Option String
  pathSegments : Option (List String)
deriving DecidableEq

def TWITTER_HOSTS : List String :=
  ["twitter.com", "www.twitter.com", "mobile.twitter.com", "m.twitter.com"]

def get_tweet (u : Url) : Option Nat :=
  if u.scheme ≠ "https" then none
  else
    match u.host with
    | none => none
    | some host =>
      if ∀ h ∈ TWITTER_HOSTS, h ≠ host then none
      else
        match u.pathSegments with
        | none => none
        | some segs =>
          match segs.get? 0 with
          | none => none
          | some _ =>
            if segs.get? 1 ≠ some "status" then none
            else
              match segs.get? 2 with
              | none => none
              | some s => parseU64 s

def get_tweet_cand (c : Option Url) : Option Nat := c.bind get_tweet

/-- The Link Extractor over the candidate URLs found in a message:
ids of the candidates accepted by `get_tweet`, in order. -/
def extractIds (cands : List (Option Url)) : List Nat :=
  cands.filterMap get_tweet_cand

/-- The spec's path shape for a status URL: the path is exactly
`/<anything>/status/<numeric-id>` (three segments, nothing after the
id).  Stated from the spec's words, for comparison with `get_tweet`. -/
def statusPathShape (u : Url) : Prop :=
  match u.pathSegments with
  | some [_, s, ids] => s = "status" ∧ (parseU64 ids).isSome = true
  | _ => False

/-! ### The store (tables `tweet`, `line`, `occurence`; init_db)

`id` columns are SQLite `integer primary key` rowids, assigned
sequentially; the `next...` counters model rowid assignment and
`last_insert_rowid`. -/

structure TweetRow where
  id : Int
  tweet_id : Int
  retweet_id : Option Int
  error : Option String
deriving DecidableEq

structure LineRow where
  id : Int
  timestamp : Nat
  sender : String
  target : String
  msg : String
deriving DecidableEq

structure OccRow where
  id : Int
  tweet : Int
  line : Int
deriving DecidableEq

structure CollectDB where
  tweets : List TweetRow
  lines : List LineRow
  occurences : List OccRow
  nextTweet : Int
  nextLine : Int
  nextOcc : Int
deriving DecidableEq

def emptyDB : CollectDB := ⟨[], [], [], 1, 1, 1⟩

/-- `App::insert_line` (collect, lines 131-139): plain insert, returns
`last_insert_rowid`.  `datetime()` is modelled by the ambient `ts`. -/
def insert_line (sender target msg : String) (ts : Nat) (db : CollectDB) :
    Int × CollectDB :=
  (db.nextLine,
    { db with
        lines := db.lines ++ [⟨db.nextLine, ts, sender, target, msg⟩],
        nextLine := db.nextLine + 1 })

/-- `App::maybe_insert_tweet` (collect, lines 141-152): insert-or-ignore
on the unique `tweet_id` column, then select the row's internal id. -/
def maybe_insert_tweet (t : Nat) (db : CollectDB) : Int × CollectDB :=
  match db.tweets.find? (fun r => r.tweet_id == toI64 t) with
  | some r => (r.id, db)
  | none =>
    (db.nextTweet,
      { db with
          tweets := db.tweets ++ [⟨db.nextTweet, toI64 t, none, none⟩],
          nextTweet := db.nextTweet + 1 })

/-- `App::maybe_insert_occurence` (collect, lines 154-161):
insert-or-ignore on the unique `(tweet, line)` pair. -/
def maybe_insert_occurence (line tweet : Int) (db : CollectDB) : CollectDB :=
  if db.occurences.any (fun o => o.tweet == tweet && o.line == line) then db
  else
    { db with
        occurences := db.occurences ++ [⟨db.nextOcc, tweet, line⟩],
        nextOcc := db.nextOcc + 1 }

/-- The link-recording loop of `App::handle_message` (collect, lines
100-126): walk the URL candidates, lazily create one Line row on the
first recognized link, upsert the Post and the Occurrence per id. -/
def record_go (sender target msg : String) (ts : Nat) :
    List (Option Url) → Option Int → CollectDB → CollectDB
  | [], _, db => db
  | c :: rest, maybe_line, db =>
    match get_tweet_cand c with
    | none => record_go sender target msg ts rest maybe_line db
    | some tid =>
      let p :=
        match maybe_line with
        | some l => (l, db)
        | none => insert_line sender target msg ts db
      let q := maybe_insert_tweet tid p.2
      let db2 := maybe_insert_occurence p.1 q.1 q.2
      record_go sender target msg ts rest (some p.1) db2

/-- The Ingestion Recorder: the recording loop started with no Line row
yet. -/
def record (cands : List (Option Url)) (sender target msg : String) (ts : Nat)
    (db : CollectDB) : CollectDB :=
  record_go sender target msg ts cands none db

/-! ### `App::extract_command` (collect, lines 163-198)

Rust indexes strings by UTF-8 byte offset and panics when a slice
boundary falls inside a multi-byte character; `StepResult.panicked`
models that panic.  `utf8Bytes` is the UTF-8 encoding of a string and
`rustCharBoundary` is Rust's `str::is_char_boundary` test. -/

structure ChatCommand where
  message : String
  response_target : String
  response_address : Option String
deriving DecidableEq

/-- Rust `str::trim` (whitespace at both ends; modelled over the ASCII
whitespace characters, the common case). -/
def rustTrim (s : String) : String :=
  ⟨((s.data.dropWhile Char.isWhitespace).reverse.dropWhile
      Char.isWhitespace).reverse⟩

/-- Rust `str::starts_with`. -/
def strStartsWith (s p : String) : Bool := List.isPrefixOf p.data s.data

/-- Drop the first `n` characters. -/
def strDrop (s : String) (n : Nat) : String := ⟨s.data.drop n⟩

inductive StepResult (α : Type) where
  | panicked
  | ok (a : α)
deriving DecidableEq

def encodeUtf8Char (c : Char) : List Nat :=
  let v := c.toNat
  if v < 0x80 then [v]
  else if v < 0x800 then
    [0xC0 ||| (v >>> 6), 0x80 ||| (v &&& 0x3F)]
  else if v < 0x10000 then
    [0xE0 ||| (v >>> 12), 0x80 ||| ((v >>> 6) &&& 0x3F), 0x80 ||| (v &&& 0x3F)]
  else
    [0xF0 ||| (v >>> 18), 0x80 ||| ((v >>> 12) &&& 0x3F),
      0x80 ||| ((v >>> 6) &&& 0x3F), 0x80 ||| (v &&& 0x3F)]

def utf8Bytes (s : String) : List Nat := (s.data.map encodeUtf8Char).flatten

def rustCharBoundary (bs : List Nat) (i : Nat) : Bool :=
  match bs.get? i with
  | none => i == bs.length
  | some b => decide (b < 0x80 ∨ 0xC0 ≤ b)

/-- `App::extract_command`.  `me` is the bot's current nickname.  The
trim is modelled by `String.trim` (ASCII whitespace; Rust also trims
the rarer non-ASCII whitespace, which no claim depends on).  Rust
evaluates `&msg[me.len()..][..1] == ":"` before `msg.starts_with(me)`,
so both byte-boundary checks happen whenever the length test passes;
in the addressed branch `msg` starts with `me` and the next byte is the
one-byte character `:`, so the byte offset `me.len() + 1` equals the
character offset `me.length + 1` used for the remainder. -/
def extract_command (me target nick msg : String) :
    StepResult (Option ChatCommand) :=
  let msg := rustTrim msg
  if !(strStartsWith target "#") then
    .ok (some ⟨msg, nick, none⟩)
  else
    let mbytes := utf8Bytes msg
    let meLen := (utf8Bytes me).length
    if meLen + 1 < mbytes.length then
      if !(rustCharBoundary mbytes meLen) then .panicked
      else if !(rustCharBoundary mbytes (meLen + 1)) then .panicked
      else if mbytes.getD meLen 0 == 58 && List.isPrefixOf (utf8Bytes me) mbytes
      then
        .ok (some ⟨rustTrim (strDrop msg (me.length + 1)), target, some nick⟩)
      else .ok none
    else .ok none

/-- `App::handle_message` (collect, lines 76-129) for an inbound PRIVMSG:
dispatch addressed messages to `handle_command` (which performs no store
writes), then the early return guarded by `target.starts_with('#')`,
then the recording loop.  `sender` is `prefix.to_string()`. -/
def handle_message (me : String) (cands : List (Option Url))
    (sender nick target msg : String) (ts : Nat) (db : CollectDB) :
    StepResult CollectDB :=
  match extract_command me target nick msg with
  | .panicked => .panicked
  | .ok (some _) => .ok db
  | .ok none =>
    if strStartsWith target "#" then .ok db
    else .ok (record cands sender target msg ts db)

/-! ### The publish scheduler (irctweets-publish.rs) -/

/-- A `tweet` row still selected by
`where retweet_id is null and error is null`. -/
def pending (r : TweetRow) : Bool := r.retweet_id.isNone && r.error.isNone

/-- `App::get_new_tweets` (publish, lines 63-79): tweet_ids of pending
rows, cast back with `id as u64`, up to `limit`. -/
def get_new_tweets (limit : Nat) (tbl : List TweetRow) : List Nat :=
  ((tbl.filter fun r => pending r).map fun r => toU64 r.tweet_id).take limit

/-- `App::store_retweet_id` (publish, lines 81-92): conditional update,
only while the row is still pending. -/
def store_retweet_id (tweet_id retweet_id : Nat) (tbl : List TweetRow) :
    List TweetRow :=
  tbl.map fun r =>
    if r.tweet_id == toI64 tweet_id && pending r then
      { r with retweet_id := some (toI64 retweet_id) }
    else r

/-- `App::store_error` (publish, lines 94-104): conditional update,
only while the row is still pending. -/
def store_error (tweet_id : Nat) (e : String) (tbl : List TweetRow) :
    List TweetRow :=
  tbl.map fun r =>
    if r.tweet_id == toI64 tweet_id && pending r then
      { r with error := some e }
    else r

/-- Outcome of one `App::tick`: the tweet ids for which the external
republish call was invoked (in order), the table afterwards, and
whether the tick returned `Ok`. -/
structure TickResult where
  calls : List Nat
  table : List TweetRow
  ok : Bool
deriving DecidableEq

/-- The batch loop of `App::tick` (publish, lines 112-127).  `f` is the
external `egg_mode::tweet::retweet` oracle; `wf id = true` means the
SQLite write of that post's outcome fails, which the `?` operator turns
into an early error return of the whole tick. -/
def tick_go (f : Nat → Except String Nat) (wf : Nat → Bool) :
    List Nat → List TweetRow → List Nat → TickResult
  | [], tbl, acc => ⟨acc.reverse, tbl, true⟩
  | id :: rest, tbl, acc =>
    match f id with
    | .ok rid =>
      if wf id then ⟨(id :: acc).reverse, tbl, false⟩
      else tick_go f wf rest (store_retweet_id id rid tbl) (id :: acc)
    | .error e =>
      if wf id then ⟨(id :: acc).reverse, tbl, false⟩
      else tick_go f wf rest (store_error id e tbl) (id :: acc)

/-- `App::tick` (publish, lines 106-130): query up to 100 pending
posts (`queryFails` models a failure of that query), return at once on
an empty batch, else run the batch loop. -/
def tick (f : Nat → Except String Nat) (wf : Nat → Bool) (queryFails : Bool)
    (tbl : List TweetRow) : TickResult :=
  if queryFails then ⟨[], tbl, false⟩
  else
    let ids := get_new_tweets 100 tbl
    if ids.isEmpty then ⟨[], tbl, true⟩
    else tick_go f wf ids tbl []

/-- Oracles for one tick of `App::run`: the retweet oracle, the
write-failure oracle and the query-failure flag. -/
def TickSpec : Type :=
  (Nat → Except String Nat) × (Nat → Bool) × Bool

/-- A run of successive ticks (`App::run`), returning each tick's
republish-call trace and the final table. -/
def ticks : List TickSpec → List TweetRow → List (List Nat) × List TweetRow
  | [], tbl => ([], tbl)
  | s :: rest, tbl =>
    let r := tick s.1 s.2.1 s.2.2 tbl
    let p := ticks rest r.table
    (r.calls :: p.1, p.2)

/-- The two conditional writes of the publish step, as abstract
operations on the `tweet` table. -/
inductive StoreOp where
  | rt (tweet_id retweet_id : Nat)
  | err (tweet_id : Nat) (e : String)

def applyOp : StoreOp → List TweetRow → List TweetRow
  | .rt t rid, tbl => store_retweet_id t rid tbl
  | .err t e, tbl => store_error t e tbl

def applyOps (ops : List StoreOp) (tbl : List TweetRow) : List TweetRow :=
  ops.foldl (fun t o => applyOp o t) tbl

/-! ### Invariants -/

/-- A row never has both `retweet_id` and `error` set. -/
def bothNeverSet (tbl : List TweetRow) : Prop :=
  ∀ r ∈ tbl, r.retweet_id = none ∨ r.error = none

/-- Every row carrying the external id `u` is already non-pending. -/
def excluded (u : Nat) (tbl : List TweetRow) : Prop :=
  ∀ q ∈ tbl, toU64 q.tweet_id = u → pending q = false

/-- The unique constraint on `tweet.tweet_id`. -/
def uniqTweetIds (tbl : List TweetRow) : Prop :=
  tbl.Pairwise fun a b => a.tweet_id ≠ b.tweet_id

/-! ## Helper lemmas -/

/-- A batch of candidates none of which is a recognized link leaves the
store untouched, whatever Line-row state the loop is in. -/
theorem record_go_extract_nil (cands : List (Option Url))
    (sender target msg : String) (ts : Nat) (ml : Option Int) (db : CollectDB)
    (h : extractIds cands = []) :
    record_go sender target msg ts cands ml db = db := by
  induction cands generalizing ml db with
  | nil => rfl
  | cons c rest ih =>
    rw [extractIds, List.filterMap_cons] at h
    cases hc : get_tweet_cand c with
    | some tid => rw [hc] at h; exact absurd h (by simp)
    | none =>
      rw [hc] at h
      simp only [record_go, hc]
      exact ih ml db h

/-- `extract_command` answers `none` only for channel destinations. -/
theorem extract_command_none_startsWith (me target nick msg : String)
    (h : extract_command me target nick msg = .ok none) :
    strStartsWith target "#" = true := by
  cases hts : strStartsWith target "#" with
  | true => rfl
  | false =>
    rw [extract_command] at h
    rw [hts] at h
    simp at h

/-! ## Claims -/

/-- C1: the spec says only channel-destination events are eligible for
link recording and a non-command channel message with a recognized link
is recorded.  The code inverts the guard (`if target.starts_with('#')
{ return }` under the comment "don't retweet stuff from private
messages"), and every non-channel message is consumed as addressed by
`extract_command`, so `handle_message` never writes any row for any
message: in particular the channel message
`https://twitter.com/alice/status/12345` in `#chan`, whose link is
recognized, is dropped. -/
theorem c1_ingestion_never_records :
    (∀ me cands sender nick target msg ts db,
        handle_message me cands sender nick target msg ts db = .panicked ∨
          handle_message me cands sender nick target msg ts db = .ok db) ∧
      handle_message "bot"
          [some ⟨"https", some "twitter.com", some ["alice", "status", "12345"]⟩]
          "alice!u@h" "alice" "#chan"
          "https://twitter.com/alice/status/12345" 0 emptyDB = .ok emptyDB ∧
      extractIds
          [some ⟨"https", some "twitter.com", some ["alice", "status", "12345"]⟩]
        = [12345] := by
  refine ⟨?_, by decide, by decide⟩
  intro me cands sender nick target msg ts db
  cases hec : extract_command me target nick msg with
  | panicked => left; rw [handle_message, hec]
  | ok oc =>
    right
    rw [handle_message, hec]
    cases oc with
    | some c => rfl
    | none =>
      rw [extract_command_none_startsWith me target nick msg hec]
      rfl

/-- C4 counterexample: `get_tweet` accepts the candidate
`https://twitter.com/alice/status/123/photo/1` although its path is not
of the two-segment shape `/<anything>/status/<numeric-id>` — segments
after the id are ignored, so the claimed "if and only if" fails. -/
theorem c4_counterexample :
    get_tweet
        ⟨"https", some "twitter.com",
          some ["alice", "status", "123", "photo", "1"]⟩ = some 123 ∧
      ¬ statusPathShape
        ⟨"https", some "twitter.com",
          some ["alice", "status", "123", "photo", "1"]⟩ := by
  refine ⟨by decide, ?_⟩
  intro h
  simp [statusPathShape] at h

/-- C4 amended: `get_tweet` yields an id for a parsed URL candidate if
and only if the scheme is https, the host is exactly one of the fixed
Twitter hosts, and the path's second segment is exactly `status` while
its third segment parses as an unsigned 64-bit integer; the first
segment is required to exist but not validated, and any path segments
after the third are ignored. -/
theorem c4_amended (u : Url) (n : Nat) :
    get_tweet u = some n ↔
      u.scheme = "https" ∧
        (∃ h, u.host = some h ∧ h ∈ TWITTER_HOSTS) ∧
        ∃ segs s, u.pathSegments = some segs ∧ segs.get? 1 = some "status" ∧
          segs.get? 2 = some s ∧ parseU64 s = some n := by
  obtain ⟨sch, ho, ps⟩ := u
  constructor
  · intro hgt
    rw [get_tweet] at hgt
    split at hgt
    · exact absurd hgt (by simp)
    next hsch =>
      simp only [ne_eq, not_not] at hsch
      cases ho with
      | none => exact absurd hgt (by simp)
      | some host =>
        simp only at hgt
        split at hgt
        · exact absurd hgt (by simp)
        next hhost =>
          push_neg at hhost
          obtain ⟨h, hmem, hne⟩ := hhost
          cases ps with
          | none => exact absurd hgt (by simp)
          | some segs =>
            simp only at hgt
            cases h0 : segs.get? 0 with
            | none => rw [h0] at hgt; exact absurd hgt (by simp)
            | some s0 =>
              rw [h0] at hgt
              simp only at hgt
              split at hgt
              · exact absurd hgt (by simp)
              next h1 =>
                simp only [ne_eq, not_not] at h1
                cases h2 : segs.get? 2 with
                | none => rw [h2] at hgt; exact absurd hgt (by simp)
                | some s =>
                  rw [h2] at hgt
                  simp only at hgt
                  refine ⟨hsch, ⟨host, rfl, ?_⟩, segs, s, rfl, h1, h2, hgt⟩
                  rwa [hne] at hmem
  · rintro ⟨hsch, ⟨host, hho, hmem⟩, segs, s, hps, h1, h2, hid⟩
    simp only at hsch hho hps
    subst hsch hho hps
    rw [get_tweet]
    rw [if_neg (by simp)]
    simp only
    rw [if_neg (by push_neg; exact ⟨host, hmem, rfl⟩)]
    have h0 : ∃ s0, segs.get? 0 = some s0 := by
      cases segs with
      | nil => simp at h1
      | cons a l => exact ⟨a, rfl⟩
    obtain ⟨s0, h0⟩ := h0
    rw [h0]
    simp only
    rw [if_neg (by rw [h1]; simp)]
    rw [h2]
    exact hid

/-- C8: a chat event whose text contains no recognized link causes no
store writes at all: the Recorder returns with the store unchanged
(no Line, Post or Occurrence row). -/
theorem c8_no_link_no_writes (cands : List (Option Url))
    (sender target msg : String) (ts : Nat) (db : CollectDB)
    (h : extractIds cands = []) :
    record cands sender target msg ts db = db :=
  record_go_extract_nil cands sender target msg ts none db h

/-- C8 witness: the insecure-scheme example writes nothing. -/
theorem c8_no_link_no_writes_witness :
    extractIds
        [some ⟨"http", some "twitter.com", some ["alice", "status", "12345"]⟩]
      = [] ∧
    record [some ⟨"http", some "twitter.com", some ["alice", "status", "12345"]⟩]
        "alice!u@h" "#c" "m" 0 emptyDB = emptyDB :=
  ⟨by decide,
    c8_no_link_no_writes _ "alice!u@h" "#c" "m" 0 emptyDB (by decide)⟩

/-- C9: a `u64` external id survives the store round-trip: the wrapping
cast to `i64` done by `maybe_insert_tweet` (which stores `toI64 t`) is
undone exactly by the `as u64` cast in `get_new_tweets`, so republish is
invoked with the ingested id. -/
theorem c9_id_roundtrip (t : Nat) (db : CollectDB) (h : t < 2 ^ 64) :
    toU64 (toI64 t) = t ∧
      ∃ r ∈ (maybe_insert_tweet t db).2.tweets, r.tweet_id = toI64 t := by
  constructor
  · simp only [toU64, toI64]
    split <;> omega
  · rw [maybe_insert_tweet]
    cases hf : db.tweets.find? (fun r => r.tweet_id == toI64 t) with
    | some r =>
      simp only
      refine ⟨r, List.mem_of_find?_eq_some hf, ?_⟩
      have := List.find?_some hf
      simpa using this
    | none =>
      simp only
      exact ⟨⟨db.nextTweet, toI64 t, none, none⟩, by simp, rfl⟩

/-- C9 witness at a concrete id. -/
theorem c9_id_roundtrip_witness :
    toU64 (toI64 12345) = 12345 ∧
      ∃ r ∈ (maybe_insert_tweet 12345 emptyDB).2.tweets,
        r.tweet_id = toI64 12345 :=
  c9_id_roundtrip 12345 emptyDB (by norm_num)

/-- C10: the claim that `extract_command` never fails is false on the
code: for bot nickname `ab` and channel message `aßcd`, the byte slice
`&msg[2..]` falls inside the multi-byte character `ß` (Rust evaluates
the slice before `starts_with`), so detection panics; on a well-formed
addressed message it does return the command. -/
theorem c10_slice_panic :
    extract_command "ab" "#c" "x" "aßcd" = .panicked ∧
      extract_command "ab" "#c" "x" "ab: hi" = .ok (some ⟨"hi", "#c", some "x"⟩) :=
  ⟨by decide, by decide⟩

/-- C2 counterexample: ingesting the message
`https://twitter.com/alice/status/12345` twice against an empty store
leaves 2 Line rows and 2 Occurrence rows (and 1 Post row), not exactly
one of each: `insert_line` is a plain per-event insert. -/
theorem c2_counterexample :
    (record [some ⟨"https", some "twitter.com", some ["alice", "status", "12345"]⟩]
        "alice!u@h" "#c" "m" 1
        (record [some ⟨"https", some "twitter.com", some ["alice", "status", "12345"]⟩]
          "alice!u@h" "#c" "m" 0 emptyDB)).lines.length = 2 ∧
    (record [some ⟨"https", some "twitter.com", some ["alice", "status", "12345"]⟩]
        "alice!u@h" "#c" "m" 1
        (record [some ⟨"https", some "twitter.com", some ["alice", "status", "12345"]⟩]
          "alice!u@h" "#c" "m" 0 emptyDB)).tweets.length = 1 ∧
    (record [some ⟨"https", some "twitter.com", some ["alice", "status", "12345"]⟩]
        "alice!u@h" "#c" "m" 1
        (record [some ⟨"https", some "twitter.com", some ["alice", "status", "12345"]⟩]
          "alice!u@h" "#c" "m" 0 emptyDB)).occurences.length = 2 := by
  refine ⟨by decide, by decide, by decide⟩

/-! ## C2: replayed ingestion -/

/-- When extraction yields exactly one id, the Recorder performs exactly
one Line insert, one Post upsert and one Occurrence upsert. -/
theorem record_single (cands : List (Option Url)) (t : Nat)
    (sender target msg : String) (ts : Nat) (db : CollectDB)
    (h : extractIds cands = [t]) :
    record cands sender target msg ts db =
      maybe_insert_occurence (insert_line sender target msg ts db).1
        (maybe_insert_tweet t (insert_line sender target msg ts db).2).1
        (maybe_insert_tweet t (insert_line sender target msg ts db).2).2 := by
  induction cands with
  | nil => simp [extractIds] at h
  | cons c rest ih =>
    rw [extractIds, List.filterMap_cons] at h
    cases hc : get_tweet_cand c with
    | none =>
      rw [hc] at h
      show record_go sender target msg ts (c :: rest) none db = _
      simp only [record_go, hc]
      exact ih h
    | some t' =>
      rw [hc] at h
      simp only [List.cons.injEq] at h
      obtain ⟨ht', hrest⟩ := h
      subst ht'
      show record_go sender target msg ts (c :: rest) none db = _
      simp only [record_go, hc]
      exact record_go_extract_nil rest sender target msg ts _ _ hrest

/-- C2 amended: ingesting a message with exactly one recognized link
twice against an initially empty store results in exactly 2 Line rows,
1 Post row and 2 Occurrence rows: the Post table is deduplicated by
external id, but a Line row (and with it an Occurrence row pairing the
post with the new line) is created per event, replay included. -/
theorem c2_amended (cands : List (Option Url)) (sender target msg : String)
    (ts1 ts2 t : Nat) (h : extractIds cands = [t]) :
    (record cands sender target msg ts1 emptyDB).lines.length = 1 ∧
    (record cands sender target msg ts1 emptyDB).tweets.length = 1 ∧
    (record cands sender target msg ts1 emptyDB).occurences.length = 1 ∧
    (record cands sender target msg ts2
        (record cands sender target msg ts1 emptyDB)).lines.length = 2 ∧
    (record cands sender target msg ts2
        (record cands sender target msg ts1 emptyDB)).tweets.length = 1 ∧
    (record cands sender target msg ts2
        (record cands sender target msg ts1 emptyDB)).occurences.length = 2 := by
  rw [record_single cands t sender target msg ts2
    (record cands sender target msg ts1 emptyDB) h]
  rw [record_single cands t sender target msg ts1 emptyDB h]
  simp +decide [insert_line, maybe_insert_tweet, maybe_insert_occurence, emptyDB]

/-- C2 amended, witness at a concrete message. -/
theorem c2_amended_witness :
    extractIds
        [some ⟨"https", some "twitter.com", some ["alice", "status", "12345"]⟩]
      = [12345] ∧
    (record [some ⟨"https", some "twitter.com", some ["alice", "status", "12345"]⟩]
        "alice!u@h" "#c" "m" 7
        (record
          [some ⟨"https", some "twitter.com", some ["alice", "status", "12345"]⟩]
          "alice!u@h" "#c" "m" 3 emptyDB)).lines.length = 2 :=
  ⟨by decide,
    (c2_amended _ "alice!u@h" "#c" "m" 3 7 12345 (by decide)).2.2.2.1⟩

/-! ## C3: error isolation inside a tick -/

/-- C3 counterexample: two pending posts; the republish call succeeds
for the first but writing its outcome fails.  The tick ends early with
an error and the second post is never attempted (`calls = [10]`), so a
write-level failure is not isolated to the one item. -/
theorem c3_counterexample :
    get_new_tweets 100 [⟨1, 10, none, none⟩, ⟨2, 20, none, none⟩] = [10, 20] ∧
      tick (fun _ => .ok 99) (fun i => i == 10) false
          [⟨1, 10, none, none⟩, ⟨2, 20, none, none⟩]
        = ⟨[10], [⟨1, 10, none, none⟩, ⟨2, 20, none, none⟩], false⟩ :=
  ⟨by decide, by decide⟩

/-- With no write failures, the batch loop attempts every selected id
and the tick returns Ok, whatever the republish outcomes are. -/
theorem tick_go_all_calls (f : Nat → Except String Nat) (ids : List Nat)
    (tbl : List TweetRow) (acc : List Nat) :
    (tick_go f (fun _ => false) ids tbl acc).calls = acc.reverse ++ ids ∧
      (tick_go f (fun _ => false) ids tbl acc).ok = true := by
  induction ids generalizing tbl acc with
  | nil => simp [tick_go]
  | cons id rest ih =>
    rw [tick_go]
    cases f id with
    | ok rid =>
      simpa [List.append_assoc] using
        ih (store_retweet_id id rid tbl) (id :: acc)
    | error e =>
      simpa [List.append_assoc] using ih (store_error id e tbl) (id :: acc)

/-- C3 amended: within one tick, a failure of an individual republish
attempt is caught and recorded on that post and does not abort the
remaining posts (with no write failure every selected post is attempted
and the tick returns Ok); but a failure writing one post's result ends
the tick early just like a batch-query failure (see
`c3_counterexample`).  The last two conjuncts replay the spec's
three-post example: the second call fails, yielding two resolved posts
and one errored post, and a subsequent tick selects nothing. -/
theorem c3_amended (f : Nat → Except String Nat) (tbl : List TweetRow) :
    (tick f (fun _ => false) false tbl).ok = true ∧
    (tick f (fun _ => false) false tbl).calls = get_new_tweets 100 tbl ∧
    tick (fun i => if i == 20 then .error "boom" else .ok (i + 1))
        (fun _ => false) false
        [⟨1, 10, none, none⟩, ⟨2, 20, none, none⟩, ⟨3, 30, none, none⟩]
      = ⟨[10, 20, 30],
          [⟨1, 10, some 11, none⟩, ⟨2, 20, none, some "boom"⟩,
            ⟨3, 30, some 31, none⟩], true⟩ ∧
    get_new_tweets 100
        [⟨1, 10, some 11, none⟩, ⟨2, 20, none, some "boom"⟩,
          ⟨3, 30, some 31, none⟩] = [] := by
  refine ⟨?_, ?_, by decide, by decide⟩
  · rw [tick]
    cases hnil : get_new_tweets 100 tbl with
    | nil => simp
    | cons a l => simpa using (tick_go_all_calls f (a :: l) tbl []).2
  · rw [tick]
    cases hnil : get_new_tweets 100 tbl with
    | nil => simp
    | cons a l => simpa using (tick_go_all_calls f (a :: l) tbl []).1

/-! ## C5: write-once outcome fields -/

theorem store_retweet_id_bothNeverSet (t rid : Nat) (tbl : List TweetRow)
    (h : bothNeverSet tbl) : bothNeverSet (store_retweet_id t rid tbl) := by
  intro q hq
  obtain ⟨r, hr, rfl⟩ := List.mem_map.mp hq
  by_cases hc : (r.tweet_id == toI64 t && pending r) = true
  · have hp : pending r = true := by
      have hc' := hc; rw [Bool.and_eq_true] at hc'; exact hc'.2
    have herr : r.error = none := by
      rw [pending, Bool.and_eq_true] at hp
      simpa [Option.isNone_iff_eq_none] using hp.2
    simp [hc, herr]
  · simp [hc]
    exact h r hr

theorem store_error_bothNeverSet (t : Nat) (e : String) (tbl : List TweetRow)
    (h : bothNeverSet tbl) : bothNeverSet (store_error t e tbl) := by
  intro q hq
  obtain ⟨r, hr, rfl⟩ := List.mem_map.mp hq
  by_cases hc : (r.tweet_id == toI64 t && pending r) = true
  · have hp : pending r = true := by
      have hc' := hc; rw [Bool.and_eq_true] at hc'; exact hc'.2
    have hrt : r.retweet_id = none := by
      rw [pending, Bool.and_eq_true] at hp
      simpa [Option.isNone_iff_eq_none] using hp.1
    simp [hc, hrt]
  · simp [hc]
    exact h r hr

theorem applyOp_bothNeverSet (o : StoreOp) (tbl : List TweetRow)
    (h : bothNeverSet tbl) : bothNeverSet (applyOp o tbl) := by
  cases o with
  | rt t rid => exact store_retweet_id_bothNeverSet t rid tbl h
  | err t e => exact store_error_bothNeverSet t e tbl h

/-- Both conditional writes leave a row that already carries an outcome
untouched, at its position. -/
theorem applyOp_get?_nonpending (o : StoreOp) (tbl : List TweetRow) (i : Nat)
    (r : TweetRow) (hi : tbl.get? i = some r) (hp : pending r = false) :
    (applyOp o tbl).get? i = some r := by
  cases o with
  | rt t rid =>
    show (store_retweet_id t rid tbl).get? i = some r
    rw [store_retweet_id, List.get?_map, hi]
    simp [hp]
  | err t e =>
    show (store_error t e tbl).get? i = some r
    rw [store_error, List.get?_map, hi]
    simp [hp]

/-- C5: under any sequence of `store_retweet_id` / `store_error`
operations, a post's resolution id and error are each written at most
once and only while both are still null: the invariant that no row has
both fields set is preserved, and a row that already has an outcome is
never modified again (so `pending → resolved` or `pending → errored`
exactly once, never both, never back). -/
theorem c5_write_once (ops : List StoreOp) (tbl : List TweetRow)
    (h : bothNeverSet tbl) :
    bothNeverSet (applyOps ops tbl) ∧
      ∀ i r, tbl.get? i = some r → pending r = false →
        (applyOps ops tbl).get? i = some r := by
  induction ops generalizing tbl with
  | nil => exact ⟨h, fun i r hi _ => hi⟩
  | cons o rest ih =>
    have hstep : applyOps (o :: rest) tbl = applyOps rest (applyOp o tbl) := rfl
    rw [hstep]
    obtain ⟨h1, h2⟩ := ih (applyOp o tbl) (applyOp_bothNeverSet o tbl h)
    exact ⟨h1, fun i r hi hp =>
      h2 i r (applyOp_get?_nonpending o tbl i r hi hp) hp⟩

/-- C5 witness: one resolved post, then an attempt to error it. -/
theorem c5_write_once_witness :
    bothNeverSet (applyOps [StoreOp.err 10 "late"] [⟨1, 10, some 99, none⟩]) ∧
      ∀ i r, [(⟨1, 10, some 99, none⟩ : TweetRow)].get? i = some r →
        pending r = false →
        (applyOps [StoreOp.err 10 "late"] [⟨1, 10, some 99, none⟩]).get? i
          = some r :=
  c5_write_once [StoreOp.err 10 "late"] [⟨1, 10, some 99, none⟩]
    (by intro r hr; rw [List.mem_singleton] at hr; subst hr; exact Or.inr rfl)

/-! ## C6: a recorded outcome permanently leaves the pending set -/

/-- A map that changes nothing about non-pending rows and never touches
`tweet_id` preserves `excluded`. -/
theorem excluded_map (u : Nat) (tbl : List TweetRow) (g : TweetRow → TweetRow)
    (hid : ∀ r, (g r).tweet_id = r.tweet_id)
    (hfix : ∀ r, pending r = false → g r = r)
    (h : excluded u tbl) : excluded u (tbl.map g) := by
  intro q hq hqu
  obtain ⟨r, hr, rfl⟩ := List.mem_map.mp hq
  have hru : toU64 r.tweet_id = u := by rw [← hid r]; exact hqu
  have hrp := h r hr hru
  rw [hfix r hrp]
  exact hrp

theorem excluded_store_retweet_id (u t rid : Nat) (tbl : List TweetRow)
    (h : excluded u tbl) : excluded u (store_retweet_id t rid tbl) := by
  refine excluded_map u tbl _ ?_ ?_ h
  · intro r
    by_cases hc : (r.tweet_id == toI64 t && pending r) = true <;> simp [hc]
  · intro r hp
    have hc : (r.tweet_id == toI64 t && pending r) = false := by
      rw [hp, Bool.and_false]
    simp [hc]

theorem excluded_store_error (u t : Nat) (e : String) (tbl : List TweetRow)
    (h : excluded u tbl) : excluded u (store_error t e tbl) := by
  refine excluded_map u tbl _ ?_ ?_ h
  · intro r
    by_cases hc : (r.tweet_id == toI64 t && pending r) = true <;> simp [hc]
  · intro r hp
    have hc : (r.tweet_id == toI64 t && pending r) = false := by
      rw [hp, Bool.and_false]
    simp [hc]

/-- An excluded id is never selected into the pending batch. -/
theorem excluded_not_selected (u limit : Nat) (tbl : List TweetRow)
    (h : excluded u tbl) : u ∉ get_new_tweets limit tbl := by
  intro hu
  rw [get_new_tweets] at hu
  have hu' := List.take_subset _ _ hu
  obtain ⟨r, hr, hru⟩ := List.mem_map.mp hu'
  have hrmem := (List.mem_filter.mp hr).1
  have hrp := (List.mem_filter.mp hr).2
  rw [h r hrmem hru] at hrp
  cases hrp

theorem excluded_tick_go (u : Nat) (f : Nat → Except String Nat)
    (wf : Nat → Bool) (ids : List Nat) (tbl : List TweetRow) (acc : List Nat)
    (h : excluded u tbl) : excluded u (tick_go f wf ids tbl acc).table := by
  induction ids generalizing tbl acc with
  | nil => exact h
  | cons id rest ih =>
    rw [tick_go]
    cases hfid : f id with
    | ok rid =>
      cases hw : wf id with
      | true => simp only [hw, if_true]; exact h
      | false =>
        simp only [hw, Bool.false_eq_true, if_false]
        exact ih (store_retweet_id id rid tbl) (id :: acc)
          (excluded_store_retweet_id u id rid tbl h)
    | error e =>
      cases hw : wf id with
      | true => simp only [hw, if_true]; exact h
      | false =>
        simp only [hw, Bool.false_eq_true, if_false]
        exact ih (store_error id e tbl) (id :: acc)
          (excluded_store_error u id e tbl h)

theorem tick_go_calls_subset (f : Nat → Except String Nat) (wf : Nat → Bool)
    (ids : List Nat) (tbl : List TweetRow) (acc : List Nat) :
    (tick_go f wf ids tbl acc).calls ⊆ acc.reverse ++ ids := by
  induction ids generalizing tbl acc with
  | nil =>
    rw [tick_go]
    simp
  | cons id rest ih =>
    rw [tick_go]
    cases hfid : f id with
    | ok rid =>
      cases hw : wf id with
      | true =>
        simp only [hw, if_true]
        simp [List.append_assoc]
      | false =>
        simp only [hw, Bool.false_eq_true, if_false]
        simpa [List.append_assoc] using
          ih (store_retweet_id id rid tbl) (id :: acc)
    | error e =>
      cases hw : wf id with
      | true =>
        simp only [hw, if_true]
        simp [List.append_assoc]
      | false =>
        simp only [hw, Bool.false_eq_true, if_false]
        simpa [List.append_assoc] using
          ih (store_error id e tbl) (id :: acc)

theorem tick_calls_subset (f : Nat → Except String Nat) (wf : Nat → Bool)
    (qf : Bool) (tbl : List TweetRow) :
    (tick f wf qf tbl).calls ⊆ get_new_tweets 100 tbl := by
  rw [tick]
  cases qf with
  | true => simp
  | false =>
    cases hnil : get_new_tweets 100 tbl with
    | nil => simp
    | cons a l =>
      simpa using tick_go_calls_subset f wf (a :: l) tbl []

theorem excluded_tick (u : Nat) (f : Nat → Except String Nat)
    (wf : Nat → Bool) (qf : Bool) (tbl : List TweetRow)
    (h : excluded u tbl) : excluded u (tick f wf qf tbl).table := by
  rw [tick]
  cases qf with
  | true => exact h
  | false =>
    cases hnil : get_new_tweets 100 tbl with
    | nil => exact h
    | cons a l => exact excluded_tick_go u f wf (a :: l) tbl [] h

/-- An excluded id never appears in any later tick's republish trace. -/
theorem excluded_ticks_traces (u : Nat) (specs : List TickSpec)
    (tbl : List TweetRow) (h : excluded u tbl) :
    ∀ tr ∈ (ticks specs tbl).1, u ∉ tr := by
  induction specs generalizing tbl with
  | nil => intro tr htr; simp [ticks] at htr
  | cons s rest ih =>
    intro tr htr
    rw [ticks] at htr
    rcases List.mem_cons.mp htr with rfl | htr
    · intro hin
      exact excluded_not_selected u 100 tbl h
        (tick_calls_subset s.1 s.2.1 s.2.2 tbl hin)
    · exact ih (tick s.1 s.2.1 s.2.2 tbl).table
        (excluded_tick u s.1 s.2.1 s.2.2 tbl h) tr htr

/-- C6: once a post carries an outcome (resolution id or error), no
later tick selects it into the pending batch and no later tick invokes
republish for it — over any sequence of ticks, with any republish
results and any store failures.  `hexcl` is the recorded outcome
together with the uniqueness of external ids: every row with this
post's external id is non-pending. -/
theorem c6_resolved_never_reselected (p : TweetRow) (tbl : List TweetRow)
    (specs : List TickSpec) (_hmem : p ∈ tbl)
    (hexcl : excluded (toU64 p.tweet_id) tbl) :
    toU64 p.tweet_id ∉ get_new_tweets 100 tbl ∧
      ∀ tr ∈ (ticks specs tbl).1, toU64 p.tweet_id ∉ tr :=
  ⟨excluded_not_selected _ 100 tbl hexcl,
    excluded_ticks_traces _ specs tbl hexcl⟩

/-- C6 witness: a resolved post is not selected and not retried by a
subsequent tick. -/
theorem c6_resolved_never_reselected_witness :
    toU64 (10 : Int) ∉ get_new_tweets 100 [⟨1, 10, some 99, none⟩] ∧
      ∀ tr ∈ (ticks [(fun _ => .ok 5, fun _ => false, false)]
          [⟨1, 10, some 99, none⟩]).1, toU64 (10 : Int) ∉ tr :=
  c6_resolved_never_reselected ⟨1, 10, some 99, none⟩ _ _ (by decide)
    (by intro q hq _; rw [List.mem_singleton] at hq; subst hq; rfl)

/-! ## C7: Post deduplication by external id -/

/-- Under the uniqueness invariant, a present external id occupies
exactly one row. -/
theorem filter_count_one (tbl : List TweetRow) (v : Int) (r : TweetRow)
    (hu : tbl.Pairwise fun a b => a.tweet_id ≠ b.tweet_id)
    (hr : r ∈ tbl) (hv : r.tweet_id = v) :
    (tbl.filter fun x => x.tweet_id == v).length = 1 := by
  induction tbl with
  | nil => cases hr
  | cons a l ih =>
    rw [List.pairwise_cons] at hu
    obtain ⟨ha, hl⟩ := hu
    rw [List.filter_cons]
    rcases List.mem_cons.mp hr with rfl | hr
    · rw [if_pos (by simp [hv])]
      have hnil : l.filter (fun x => x.tweet_id == v) = [] := by
        rw [List.filter_eq_nil]
        intro x hx
        have hax := ha x hx
        rw [hv] at hax
        simpa using Ne.symm hax
      simp [hnil]
    · rw [if_neg ?_]
      · exact ih hl hr
      · have harv := ha r hr
        rw [hv] at harv
        simp [harv]

theorem maybe_insert_tweet_uniq (t : Nat) (db : CollectDB)
    (hu : uniqTweetIds db.tweets) :
    uniqTweetIds (maybe_insert_tweet t db).2.tweets := by
  rw [maybe_insert_tweet]
  cases hf : db.tweets.find? (fun r => r.tweet_id == toI64 t) with
  | some r => exact hu
  | none =>
    simp only
    rw [uniqTweetIds, List.pairwise_append]
    refine ⟨hu, List.pairwise_singleton _ _, ?_⟩
    intro a ha b hb
    rw [List.mem_singleton] at hb
    subst hb
    have := List.find?_eq_none.mp hf a ha
    simpa using this

theorem maybe_insert_occurence_tweets (line tweet : Int) (db : CollectDB) :
    (maybe_insert_occurence line tweet db).tweets = db.tweets := by
  rw [maybe_insert_occurence]
  split <;> rfl

theorem record_go_uniq (cands : List (Option Url)) (sender target msg : String)
    (ts : Nat) (ml : Option Int) (db : CollectDB)
    (hu : uniqTweetIds db.tweets) :
    uniqTweetIds (record_go sender target msg ts cands ml db).tweets := by
  induction cands generalizing ml db with
  | nil => exact hu
  | cons c rest ih =>
    cases hc : get_tweet_cand c with
    | none =>
      simp only [record_go, hc]
      exact ih ml db hu
    | some tid =>
      simp only [record_go, hc]
      cases ml with
      | some l =>
        simp only
        refine ih _ _ ?_
        rw [maybe_insert_occurence_tweets]
        exact maybe_insert_tweet_uniq tid db hu
      | none =>
        simp only
        refine ih _ _ ?_
        rw [maybe_insert_occurence_tweets]
        exact maybe_insert_tweet_uniq tid _ hu

/-- C7: two recordings of the same external id create exactly one Post
row: the second `maybe_insert_tweet` call changes nothing and returns
the same internal id, the row count for that external id is exactly 1,
and the external-id uniqueness of the Post table is preserved by
`maybe_insert_tweet` and by every `record` operation (which is what each
chat event executes per extracted id). -/
theorem c7_post_dedup (t : Nat) (db : CollectDB)
    (hu : uniqTweetIds db.tweets) :
    (maybe_insert_tweet t (maybe_insert_tweet t db).2).2
        = (maybe_insert_tweet t db).2 ∧
    (maybe_insert_tweet t (maybe_insert_tweet t db).2).1
        = (maybe_insert_tweet t db).1 ∧
    ((maybe_insert_tweet t db).2.tweets.filter
        fun r => r.tweet_id == toI64 t).length = 1 ∧
    uniqTweetIds (maybe_insert_tweet t db).2.tweets ∧
    ∀ cands sender target msg ts,
      uniqTweetIds (record cands sender target msg ts db).tweets := by
  cases hf : db.tweets.find? (fun r => r.tweet_id == toI64 t) with
  | some r =>
    have h1 : maybe_insert_tweet t db = (r.id, db) := by
      rw [maybe_insert_tweet, hf]
    refine ⟨by simp [h1], by simp [h1], ?_, maybe_insert_tweet_uniq t db hu,
      fun cands sender target msg ts =>
        record_go_uniq cands sender target msg ts none db hu⟩
    rw [h1]
    refine filter_count_one db.tweets (toI64 t) r hu
      (List.mem_of_find?_eq_some hf) ?_
    simpa using List.find?_some hf
  | none =>
    have h1 : maybe_insert_tweet t db =
        (db.nextTweet,
          { db with
              tweets := db.tweets ++ [⟨db.nextTweet, toI64 t, none, none⟩],
              nextTweet := db.nextTweet + 1 }) := by
      rw [maybe_insert_tweet, hf]
    have hnil : db.tweets.filter (fun r => r.tweet_id == toI64 t) = [] := by
      rw [List.filter_eq_nil]
      intro a ha
      simpa using List.find?_eq_none.mp hf a ha
    refine ⟨?_, ?_, ?_, maybe_insert_tweet_uniq t db hu,
      fun cands sender target msg ts =>
        record_go_uniq cands sender target msg ts none db hu⟩
    · rw [h1]
      simp [maybe_insert_tweet, List.find?_append, hf, List.find?_cons]
    · rw [h1]
      simp [maybe_insert_tweet, List.find?_append, hf, List.find?_cons]
    · rw [h1]
      show ((db.tweets ++ [(⟨db.nextTweet, toI64 t, none, none⟩ : TweetRow)]).filter
          fun r => r.tweet_id == toI64 t).length = 1
      rw [List.filter_append, hnil]
      simp

/-- C7 witness: a store already holding external id 77. -/
theorem c7_post_dedup_witness :
    (maybe_insert_tweet 77
        (maybe_insert_tweet 77 ⟨[⟨1, 77, none, none⟩], [], [], 2, 1, 1⟩).2).2
      = (maybe_insert_tweet 77 ⟨[⟨1, 77, none, none⟩], [], [], 2, 1, 1⟩).2 ∧
    (maybe_insert_tweet 77
        (maybe_insert_tweet 77 ⟨[⟨1, 77, none, none⟩], [], [], 2, 1, 1⟩).2).1
      = (maybe_insert_tweet 77 ⟨[⟨1, 77, none, none⟩], [], [], 2, 1, 1⟩).1 ∧
    ((maybe_insert_tweet 77 ⟨[⟨1, 77, none, none⟩], [], [], 2, 1, 1⟩).2.tweets.filter
        fun r => r.tweet_id == toI64 77).length = 1 ∧
    uniqTweetIds
        (maybe_insert_tweet 77 ⟨[⟨1, 77, none, none⟩], [], [], 2, 1, 1⟩).2.tweets ∧
    ∀ cands sender target msg ts,
      uniqTweetIds
        (record cands sender target msg ts
          ⟨[⟨1, 77, none, none⟩], [], [], 2, 1, 1⟩).tweets :=
  c7_post_dedup 77 ⟨[⟨1, 77, none, none⟩], [], [], 2, 1, 1⟩
    (List.pairwise_singleton _ _)

end Irctweets
